import Mathlib

/-
Verification development for the batched image post-processing engine
(`comfy_extras/nodes_post_processing.py`): blend compositing, Gaussian blur,
palette quantization, unsharp sharpen, lossless transposition and rotation.

Modelling conventions:
* Images are batches of H×W RGB pixel grids.  Float tensors are modelled as
  `List (List (ℚ × ℚ × ℚ))` (rows of RGB pixels with rational components);
  blend and blur, whose formulas involve `sqrt`/`exp`, are modelled per pixel
  over `ℝ`.
* The 8-bit conversion `(tensor * 255).to(torch.uint8)` is modelled by
  `toU8`: truncation of `x * 255` toward zero (inputs are constrained to
  `[0, 1]` by the ImageBatch invariant; out-of-range values saturate at 255).
  PIL images are `List (List (Fin 256 × Fin 256 × Fin 256))`.
* The preallocated output buffer `result = torch.zeros_like(image)` together
  with the per-image store `result[b] = arr` is modelled by
  `assignBroadcast`, which implements the torch broadcast-assignment rule:
  a source dimension must equal the target dimension or be 1, otherwise the
  store raises.  Batch tensors are rectangular, so the per-image target
  dimensions coincide with the global tensor dimensions.
* Python exceptions are modelled by `Except String`; a loop that can raise is
  modelled by `mapE`, which stops at the first error.
-/

abbrev U8 := Fin 256

abbrev U8Px := U8 × U8 × U8

abbrev U8Img := List (List U8Px)

abbrev Px := ℚ × ℚ × ℚ

abbrev Img := List (List Px)

abbrev RGB := ℕ × ℕ × ℕ

/-- Clamp a natural number into the uint8 range. -/
def natToU8 (n : ℕ) : U8 := ⟨min n 255, Nat.lt_succ_of_le (Nat.min_le_right _ _)⟩

/-- Model of `(x * 255).to(torch.uint8)` for a channel value `x ∈ [0, 1]`:
truncation toward zero of `x * 255`. -/
def toU8 (x : ℚ) : U8 := natToU8 ⌊x * 255⌋.toNat

/-- Model of `torch.tensor(np.array(img)).float() / 255` for one channel. -/
def fromU8 (n : U8) : ℚ := (n.val : ℚ) / 255

def toU8Px (p : Px) : U8Px := (toU8 p.1, toU8 p.2.1, toU8 p.2.2)

def fromU8Px (p : U8Px) : Px := (fromU8 p.1, fromU8 p.2.1, fromU8 p.2.2)

def toU8Img (img : Img) : U8Img := img.map (List.map toU8Px)

def fromU8Img (u : U8Img) : Img := u.map (List.map fromU8Px)

/-- A channel value lying on the 8-bit lattice, i.e. an integer multiple of
`1/255` inside `[0, 1]`. -/
def onLattice (x : ℚ) : Prop := ∃ n : ℕ, n ≤ 255 ∧ x = (n : ℚ) / 255

/-- Per-pixel lattice membership for all three channels. -/
def pxOnLattice (p : Px) : Prop := onLattice p.1 ∧ onLattice p.2.1 ∧ onLattice p.2.2

/-- Error-propagating map: the Python `for b in range(batch_size)` loop that
raises at the first failing image. -/
def mapE {α β : Type} (f : α → Except String β) : List α → Except String (List β)
  | [] => .ok []
  | a :: as =>
    match f a with
    | .error e => .error e
    | .ok b =>
      match mapE f as with
      | .error e => .error e
      | .ok bs => .ok (b :: bs)

/-- Height and width of an image (rows count, first-row length). -/
def imgDims (img : Img) : ℕ × ℕ := (img.length, (img.headD []).length)

/-- Torch broadcast of the row dimension when storing into a height-`h` slot. -/
def broadcastRows (h : ℕ) (rows : Img) : Img :=
  if rows.length = 1 then List.replicate h (rows.headD []) else rows

/-- Torch broadcast of the column dimension when storing into a width-`w` slot. -/
def broadcastCols (w : ℕ) (row : List Px) : List Px :=
  if row.length = 1 then List.replicate w (row.headD ((0 : ℚ), (0 : ℚ), (0 : ℚ))) else row

def broadcastImg (t : ℕ × ℕ) (src : Img) : Img :=
  (broadcastRows t.1 src).map (broadcastCols t.2)

/-- Model of the store `result[b] = arr` into the preallocated
`torch.zeros_like(image)` buffer: the source spatial shape must broadcast to
the target spatial shape `(t.1, t.2)` (each source dimension equal to the
target one or to 1), otherwise torch raises a shape-mismatch error. -/
def assignBroadcast (t : ℕ × ℕ) (src : Img) : Except String Img :=
  if ((imgDims src).1 = t.1 ∨ (imgDims src).1 = 1) ∧ ((imgDims src).2 = t.2 ∨ (imgDims src).2 = 1)
  then .ok (broadcastImg t src)
  else .error "RuntimeError: shape mismatch in batch assignment"

/-- Transpose of a list-of-rows grid: column `j` of the input becomes row `j`
of the output (rectangular inputs). -/
def transposeLL {α : Type} (l : List (List α)) : List (List α) :=
  (List.range (l.headD []).length).map (fun j => l.filterMap (fun row => row[j]?))

/-- The seven members of `PIL.Image.Transpose` used by the Transpose node. -/
inductive TMethod
  | flipH
  | flipV
  | rot90
  | rot180
  | rot270
  | transposeM
  | transverseM
deriving DecidableEq

/-- The dispatch table `methods` of `Transpose.transpose`. -/
def transposeMethods : List (String × TMethod) :=
  [("Flip horizontal", .flipH),
   ("Flip vertical", .flipV),
   ("Rotate 90°", .rot90),
   ("Rotate 180°", .rot180),
   ("Rotate 270°", .rot270),
   ("Transpose", .transposeM),
   ("Transverse", .transverseM)]

def transposeMethodNames : List String := transposeMethods.map Prod.fst

/-- Model of `PIL.Image.transpose` on the uint8 pixel grid: exact pixel
permutations (PIL's ROTATE_90 is counter-clockwise). -/
def pilTranspose : TMethod → U8Img → U8Img
  | .flipH, u => u.map List.reverse
  | .flipV, u => u.reverse
  | .rot90, u => (transposeLL u).reverse
  | .rot180, u => (u.reverse).map List.reverse
  | .rot270, u => (transposeLL u).map List.reverse
  | .transposeM, u => transposeLL u
  | .transverseM, u => ((transposeLL u).reverse).map List.reverse

/-- One loop iteration of `Transpose.transpose`: convert to uint8, apply the
PIL transpose selected by the `method` string (a missing key raises
KeyError), convert back to floats in `[0, 1]`, and store into the
preallocated `zeros_like(image)` buffer, whose per-image shape is the input
shape. -/
def transposeOne (method : String) (img : Img) : Except String Img :=
  match transposeMethods.lookup method with
  | none => .error ("KeyError: " ++ method)
  | some m => assignBroadcast (imgDims img) (fromU8Img (pilTranspose m (toU8Img img)))

/-- `Transpose.transpose`: the per-image loop over the batch. -/
def transposeOp (images : List Img) (method : String) : Except String (List Img) :=
  mapE (transposeOne method) images

/-- Hexadecimal value of one character, if it is a hex digit. -/
def hexVal (c : Char) : Option ℕ :=
  if c.isDigit then some (c.toNat - '0'.toNat)
  else if 'a' ≤ c ∧ c ≤ 'f' then some (c.toNat - 'a'.toNat + 10)
  else if 'A' ≤ c ∧ c ≤ 'F' then some (c.toNat - 'A'.toNat + 10)
  else none

def isHexDigit (c : Char) : Bool := (hexVal c).isSome

/-- The regex `^#[a-fA-F0-9]{6}$` of `parse_palette`. -/
def isHex6 (s : String) : Bool :=
  match s.toList with
  | '#' :: rest => rest.length == 6 && rest.all isHexDigit
  | _ => false

def hexPair (a b : Char) : ℕ := (hexVal a).getD 0 * 16 + (hexVal b).getD 0

def hexToRGB (s : String) : RGB :=
  match s.toList with
  | ['#', a, b, c, d, e, f] => (hexPair a b, hexPair c d, hexPair e f)
  | _ => (0, 0, 0)

/-- Modelled from the spec: `PIL.ImageColor.colormap` (external library data),
the CSS named-color table mapping lowercase keywords to `#rrggbb` strings. -/
def colormap : List (String × String) :=
  [("aliceblue", "#f0f8ff"), ("antiquewhite", "#faebd7"), ("aqua", "#00ffff"),
   ("aquamarine", "#7fffd4"), ("azure", "#f0ffff"), ("beige", "#f5f5dc"),
   ("bisque", "#ffe4c4"), ("black", "#000000"), ("blanchedalmond", "#ffebcd"),
   ("blue", "#0000ff"), ("blueviolet", "#8a2be2"), ("brown", "#a52a2a"),
   ("burlywood", "#deb887"), ("cadetblue", "#5f9ea0"), ("chartreuse", "#7fff00"),
   ("chocolate", "#d2691e"), ("coral", "#ff7f50"), ("cornflowerblue", "#6495ed"),
   ("cornsilk", "#fff8dc"), ("crimson", "#dc143c"), ("cyan", "#00ffff"),
   ("darkblue", "#00008b"), ("darkcyan", "#008b8b"), ("darkgoldenrod", "#b8860b"),
   ("darkgray", "#a9a9a9"), ("darkgrey", "#a9a9a9"), ("darkgreen", "#006400"),
   ("darkkhaki", "#bdb76b"), ("darkmagenta", "#8b008b"), ("darkolivegreen", "#556b2f"),
   ("darkorange", "#ff8c00"), ("darkorchid", "#9932cc"), ("darkred", "#8b0000"),
   ("darksalmon", "#e9967a"), ("darkseagreen", "#8fbc8f"), ("darkslateblue", "#483d8b"),
   ("darkslategray", "#2f4f4f"), ("darkslategrey", "#2f4f4f"), ("darkturquoise", "#00ced1"),
   ("darkviolet", "#9400d3"), ("deeppink", "#ff1493"), ("deepskyblue", "#00bfff"),
   ("dimgray", "#696969"), ("dimgrey", "#696969"), ("dodgerblue", "#1e90ff"),
   ("firebrick", "#b22222"), ("floralwhite", "#fffaf0"), ("forestgreen", "#228b22"),
   ("fuchsia", "#ff00ff"), ("gainsboro", "#dcdcdc"), ("ghostwhite", "#f8f8ff"),
   ("gold", "#ffd700"), ("goldenrod", "#daa520"), ("gray", "#808080"),
   ("grey", "#808080"), ("green", "#008000"), ("greenyellow", "#adff2f"),
   ("honeydew", "#f0fff0"), ("hotpink", "#ff69b4"), ("indianred", "#cd5c5c"),
   ("indigo", "#4b0082"), ("ivory", "#fffff0"), ("khaki", "#f0e68c"),
   ("lavender", "#e6e6fa"), ("lavenderblush", "#fff0f5"), ("lawngreen", "#7cfc00"),
   ("lemonchiffon", "#fffacd"), ("lightblue", "#add8e6"), ("lightcoral", "#f08080"),
   ("lightcyan", "#e0ffff"), ("lightgoldenrodyellow", "#fafad2"), ("lightgreen", "#90ee90"),
   ("lightgray", "#d3d3d3"), ("lightgrey", "#d3d3d3"), ("lightpink", "#ffb6c1"),
   ("lightsalmon", "#ffa07a"), ("lightseagreen", "#20b2aa"), ("lightskyblue", "#87cefa"),
   ("lightslategray", "#778899"), ("lightslategrey", "#778899"), ("lightsteelblue", "#b0c4de"),
   ("lightyellow", "#ffffe0"), ("lime", "#00ff00"), ("limegreen", "#32cd32"),
   ("linen", "#faf0e6"), ("magenta", "#ff00ff"), ("maroon", "#800000"),
   ("mediumaquamarine", "#66cdaa"), ("mediumblue", "#0000cd"), ("mediumorchid", "#ba55d3"),
   ("mediumpurple", "#9370db"), ("mediumseagreen", "#3cb371"), ("mediumslateblue", "#7b68ee"),
   ("mediumspringgreen", "#00fa9a"), ("mediumturquoise", "#48d1cc"), ("mediumvioletred", "#c71585"),
   ("midnightblue", "#191970"), ("mintcream", "#f5fffa"), ("mistyrose", "#ffe4e1"),
   ("moccasin", "#ffe4b5"), ("navajowhite", "#ffdead"), ("navy", "#000080"),
   ("oldlace", "#fdf5e6"), ("olive", "#808000"), ("olivedrab", "#6b8e23"),
   ("orange", "#ffa500"), ("orangered", "#ff4500"), ("orchid", "#da70d6"),
   ("palegoldenrod", "#eee8aa"), ("palegreen", "#98fb98"), ("paleturquoise", "#afeeee"),
   ("palevioletred", "#db7093"), ("papayawhip", "#ffefd5"), ("peachpuff", "#ffdab9"),
   ("peru", "#cd853f"), ("pink", "#ffc0cb"), ("plum", "#dda0dd"),
   ("powderblue", "#b0e0e6"), ("purple", "#800080"), ("rebeccapurple", "#663399"),
   ("red", "#ff0000"), ("rosybrown", "#bc8f8f"), ("royalblue", "#4169e1"),
   ("saddlebrown", "#8b4513"), ("salmon", "#fa8072"), ("sandybrown", "#f4a460"),
   ("seagreen", "#2e8b57"), ("seashell", "#fff5ee"), ("sienna", "#a0522d"),
   ("silver", "#c0c0c0"), ("skyblue", "#87ceeb"), ("slateblue", "#6a5acd"),
   ("slategray", "#708090"), ("slategrey", "#708090"), ("snow", "#fffafa"),
   ("springgreen", "#00ff7f"), ("steelblue", "#4682b4"), ("tan", "#d2b48c"),
   ("teal", "#008080"), ("thistle", "#d8bfd8"), ("tomato", "#ff6347"),
   ("turquoise", "#40e0d0"), ("violet", "#ee82ee"), ("wheat", "#f5deb3"),
   ("white", "#ffffff"), ("whitesmoke", "#f5f5f5"), ("yellow", "#ffff00"),
   ("yellowgreen", "#9acd32")]

/-- ASCII lowercasing of one character, as `str.lower()` acts on the color
names and specs in play. -/
def lowerChar (c : Char) : Char :=
  if 'A' ≤ c ∧ c ≤ 'Z' then Char.ofNat (c.toNat + 32) else c

/-- ASCII `str.lower()`. -/
def lowerStr (s : String) : String := String.mk (s.toList.map lowerChar)

/-- Modelled from the spec: `PIL.ImageColor.getrgb` (external library code)
restricted to the two forms reachable from `parse_palette`: a 6-digit hex
string or a named color (looked up case-insensitively in `colormap`). -/
def getrgbModel (s : String) : RGB :=
  if isHex6 s then hexToRGB s
  else ((colormap.lookup (lowerStr s)).map hexToRGB).getD (0, 0, 0)

def natOfDigits (ds : List Char) : ℕ :=
  ds.foldl (fun acc c => acc * 10 + (c.toNat - '0'.toNat)) 0

/-- One `\d{1,3}` group: a maximal digit run of length 1 to 3 (a longer run
makes the anchored regex fail, since the next pattern character is not a
digit). -/
def parseNum13 (cs : List Char) : Option (ℕ × List Char) :=
  let p := cs.span Char.isDigit
  if 1 ≤ p.1.length ∧ p.1.length ≤ 3 then some (natOfDigits p.1, p.2) else none

/-- The regex `^\(?(\d{1,3}),(\d{1,3}),(\d{1,3})\)?$` of `parse_palette`:
optional parentheses around three comma-separated 1-3 digit groups. -/
def tripletMatch (s : String) : Option RGB :=
  let cs0 := s.toList
  let cs1 := match cs0 with
    | '(' :: t => t
    | _ => cs0
  let cs2 := if cs1.getLast? = some ')' then cs1.dropLast else cs1
  match parseNum13 cs2 with
  | none => none
  | some (r, rest1) =>
    match rest1 with
    | ',' :: rest2 =>
      match parseNum13 rest2 with
      | none => none
      | some (g, rest3) =>
        match rest3 with
        | ',' :: rest4 =>
          match parseNum13 rest4 with
          | none => none
          | some (b, rest5) => if rest5 = [] then some (r, g, b) else none
        | _ => none
    | _ => none

/-- `Rotate.rotate.parse_palette`: accept `#rrggbb` hex or a named color via
`ImageColor.getrgb`, else a decimal triplet with each component at most 255,
else raise `ValueError`. -/
def parsePalette (colorStr : String) : Except String RGB :=
  if isHex6 colorStr || (colormap.lookup (lowerStr colorStr)).isSome then
    .ok (getrgbModel colorStr)
  else
    match tripletMatch colorStr with
    | some (r, g, b) =>
      if r ≤ 255 ∧ g ≤ 255 ∧ b ≤ 255 then .ok (r, g, b)
      else .error ("Invalid color format: " ++ colorStr)
    | none => .error ("Invalid color format: " ++ colorStr)

/-- `fill_color.replace(" ", "")`. -/
def stripSpaces (s : String) : String := String.mk (s.toList.filter (fun c => c ≠ ' '))

/-- The fill-color handling of `Rotate.rotate`: `fill_color or "#000000"`
(empty string defaults), spaces removed, then `parse_palette`. -/
def parseFillColor (s : String) : Except String RGB :=
  parsePalette (stripSpaces (if s = "" then "#000000" else s))

/-- The three members of `PIL.Image.Resampling` used by the Rotate node. -/
inductive Resampling
  | nearest
  | bilinear
  | bicubic
deriving DecidableEq

/-- The dispatch table `resamplers` of `Rotate.rotate`. -/
def resamplers : List (String × Resampling) :=
  [("Nearest Neighbor", .nearest), ("Bilinear", .bilinear), ("Bicubic", .bicubic)]

def resamplerNames : List String := resamplers.map Prod.fst

/-- One loop iteration of `Rotate.rotate`, parameterized by the external
`PIL.Image.rotate` pixel transform `pil` (given the resampling mode and
parsed fill color) on the uint8 grid; the angle is absorbed into `pil`.
Convert to uint8, resolve the fill color (empty defaults to `#000000`,
spaces stripped, `parse_palette` raises on bad specs), look up the resampler
(a missing key raises KeyError), rotate, convert back to floats, and store
into the preallocated `zeros_like(image)` buffer. -/
def rotateOne (pil : Resampling → RGB → U8Img → U8Img) (resample fillColor : String)
    (img : Img) : Except String Img :=
  match parseFillColor fillColor with
  | .error e => .error e
  | .ok color =>
    match resamplers.lookup resample with
    | none => .error ("KeyError: " ++ resample)
    | some rs =>
      assignBroadcast (imgDims img) (fromU8Img (pil rs color (toU8Img img)))

/-- `Rotate.rotate`: the per-image loop over the batch. -/
def rotateOp (pil : Resampling → RGB → U8Img → U8Img) (images : List Img)
    (resample : String) (fillColor : String) : Except String (List Img) :=
  mapE (rotateOne pil resample fillColor) images

/-- Modelled from the spec: `PIL.Image.rotate` at `angle = 0` (external
library code) returns the pixel buffer unchanged for every resampling mode
and fill color; `expand=False` keeps the dimensions. -/
def pilRotateZero : Resampling → RGB → U8Img → U8Img := fun _ _ u => u

/-- `torch.clamp(x, lo, hi)` on a real channel value. -/
def clampR (x lo hi : ℝ) : ℝ := min (max x lo) hi

/-- `torch.clamp(x, lo, hi)` on a rational channel value. -/
def clampQ (x lo hi : ℚ) : ℚ := min (max x lo) hi

/-- `Blend.g`: the soft-light helper `x ≤ 0.25 ? ((16x-12)x+4)x : sqrt x`. -/
noncomputable def gPx (x : ℝ) : ℝ :=
  if x ≤ 0.25 then ((16 * x - 12) * x + 4) * x else Real.sqrt x

/-- The list of blend modes accepted by `Blend.blend_mode`. -/
def validBlendModes : List String :=
  ["normal", "multiply", "screen", "overlay", "soft_light"]

/-- `Blend.blend_mode` on one pixel channel (elementwise `torch.where`
becomes a conditional); an unknown mode raises `ValueError`. -/
noncomputable def blendModePx (mode : String) (img1 img2 : ℝ) : Except String ℝ :=
  if mode = "normal" then .ok img2
  else if mode = "multiply" then .ok (img1 * img2)
  else if mode = "screen" then .ok (1 - (1 - img1) * (1 - img2))
  else if mode = "overlay" then
    .ok (if img1 ≤ 0.5 then 2 * img1 * img2 else 1 - 2 * (1 - img1) * (1 - img2))
  else if mode = "soft_light" then
    .ok (if img2 ≤ 0.5 then img1 - (1 - 2 * img2) * img1 * (1 - img1)
         else img1 + (2 * img2 - 1) * (gPx img1 - img1))
  else .error ("Unsupported blend mode: " ++ mode)

/-- `Blend.blend_images` on one pixel channel of same-shaped inputs (no
resize step): blend by mode, mix with the factor, clamp to `[0, 1]`. -/
noncomputable def blendImagesPx (img1 img2 factor : ℝ) (mode : String) : Except String ℝ :=
  match blendModePx mode img1 img2 with
  | .error e => .error e
  | .ok blended => .ok (clampR (img1 * (1 - factor) + blended * factor) 0 1)

/-- One coordinate of `torch.linspace(-1, 1, n)`. -/
noncomputable def linspace (n i : ℕ) : ℝ := -1 + 2 * (i : ℝ) / ((n : ℝ) - 1)

/-- One unnormalized sample of `Blur.gaussian_kernel`: the grid point
`(x, y) = (linspace n i, linspace n j)`, `d = sqrt (x²+y²)`,
`exp (-(d²) / (2σ²))`. -/
noncomputable def gaussianG (n : ℕ) (σ : ℝ) (i j : ℕ) : ℝ :=
  let x := linspace n i
  let y := linspace n j
  let d := Real.sqrt (x * x + y * y)
  Real.exp (-(d * d) / (2 * σ * σ))

/-- The sum `g.sum()` over the whole grid. -/
noncomputable def gaussianKernelSum (n : ℕ) (σ : ℝ) : ℝ :=
  ∑ i ∈ Finset.range n, ∑ j ∈ Finset.range n, gaussianG n σ i j

/-- `Blur.gaussian_kernel`: the normalized kernel `g / g.sum()`. -/
noncomputable def gaussianKernelN (n : ℕ) (σ : ℝ) (i j : ℕ) : ℝ :=
  gaussianG n σ i j / gaussianKernelSum n σ

/-- The sharpen kernel of `Sharpen.sharpen`: a `(2r+1)×(2r+1)` grid of `-1`
with `kernel_size²` at the center, then multiplied by `alpha`. -/
def sharpenKernel (n : ℕ) (α : ℚ) (i j : ℕ) : ℚ :=
  (if i = n / 2 ∧ j = n / 2 then ((n : ℚ)) ^ 2 else -1) * α

/-- Depthwise 2D cross-correlation of `F.conv2d` on one channel at one output
position, with zero padding `n / 2` (the input function is already
zero-extended outside its bounds). -/
def conv2dPx (n : ℕ) (k : ℕ → ℕ → ℚ) (img : ℤ → ℤ → ℚ) (y x : ℤ) : ℚ :=
  ∑ i ∈ Finset.range n, ∑ j ∈ Finset.range n,
    k i j * img (y + (i : ℤ) - ((n / 2 : ℕ) : ℤ)) (x + (j : ℤ) - ((n / 2 : ℕ) : ℤ))

/-- `Sharpen.sharpen` on one channel at one output position (for
`sharpen_radius = r > 0`): convolve with the sharpen kernel, then clamp. -/
def sharpenPx (r : ℕ) (α : ℚ) (img : ℤ → ℤ → ℚ) (y x : ℤ) : ℚ :=
  clampQ (conv2dPx (2 * r + 1) (sharpenKernel (2 * r + 1) α) img y x) 0 1

/-- A 4D tensor shape `(batch, height, width, channels)`. -/
structure Shape4 where
  b : ℕ
  h : ℕ
  w : ℕ
  c : ℕ
deriving DecidableEq

/-- Torch broadcast of a single dimension pair. -/
def broadcastDim (a b : ℕ) : Option ℕ :=
  if a = b then some a else if a = 1 then some b else if b = 1 then some a else none

/-- Torch broadcast of two 4D shapes (elementwise binary ops, `torch.where`). -/
def broadcastShape (s t : Shape4) : Option Shape4 :=
  match broadcastDim s.b t.b, broadcastDim s.h t.h, broadcastDim s.w t.w, broadcastDim s.c t.c with
  | some b, some h, some w, some c => some ⟨b, h, w, c⟩
  | _, _, _, _ => none

/-- Modelled from the spec: `comfy.utils.common_upscale` (not under `src/`)
resizes a batch to the given width and height (bicubic, center-cropped) and
preserves the batch size and channel count; only its shape effect is
modelled. -/
def commonUpscaleShape (s : Shape4) (width height : ℕ) : Shape4 :=
  ⟨s.b, height, width, s.c⟩

/-- Shape-level `Blend.blend_mode`: `normal` returns `img2` as is; the other
four modes combine `img1` and `img2` elementwise, which broadcasts the two
shapes or raises; an unknown mode raises `ValueError`. -/
def blendModeShape (mode : String) (s1 s2 : Shape4) : Except String Shape4 :=
  if mode = "normal" then .ok s2
  else if mode = "multiply" ∨ mode = "screen" ∨ mode = "overlay" ∨ mode = "soft_light" then
    match broadcastShape s1 s2 with
    | some s => .ok s
    | none => .error "RuntimeError: broadcast failure"
  else .error ("Unsupported blend mode: " ++ mode)

/-- Shape-level `Blend.blend_images`: when the full shapes differ (the test
is `image1.shape != image2.shape`, not a spatial-only test), `image2` is
resized to `image1`'s height and width; then the mode is applied and the
final mix `image1 * (1-factor) + blended * factor` broadcasts with `image1`
(clamping keeps the shape). -/
def blendImagesShape (s1 s2 : Shape4) (mode : String) : Except String Shape4 :=
  let s2b := if s1 = s2 then s2 else commonUpscaleShape s2 s1.w s1.h
  match blendModeShape mode s1 s2b with
  | .error e => .error e
  | .ok bl =>
    match broadcastShape s1 bl with
    | some out => .ok out
    | none => .error "RuntimeError: broadcast failure"

/-- The two dither settings of the Quantize node. -/
inductive DitherMode
  | none
  | floydSteinberg
deriving DecidableEq

/-- Line 141 of the source: `Image.Dither.FLOYDSTEINBERG if dither ==
"floyd-steinberg" else Image.Dither.NONE` — any other string silently
selects no dithering. -/
def ditherOf (s : String) : DitherMode :=
  if s = "floyd-steinberg" then .floydSteinberg else .none

/-- A uint8 pixel viewed in the rational color cube (0..255 scale). -/
def u8ToQpx (p : U8Px) : Px := ((p.1.val : ℚ), (p.2.1.val : ℚ), (p.2.2.val : ℚ))

def pxAdd (a b : Px) : Px := (a.1 + b.1, a.2.1 + b.2.1, a.2.2 + b.2.2)

def pxSub (a b : Px) : Px := (a.1 - b.1, a.2.1 - b.2.1, a.2.2 - b.2.2)

def pxScale (c : ℚ) (a : Px) : Px := (c * a.1, c * a.2.1, c * a.2.2)

/-- Squared distance between a working color and a palette color. -/
def qdist (v : Px) (c : U8Px) : ℚ :=
  (v.1 - (c.1.val : ℚ)) ^ 2 + (v.2.1 - (c.2.1.val : ℚ)) ^ 2 + (v.2.2 - (c.2.2.val : ℚ)) ^ 2

/-- Nearest palette color to a working color (first palette entry wins ties). -/
def nearestColorQ (pal : List U8Px) (v : Px) : U8Px :=
  match pal with
  | [] => (0, 0, 0)
  | c :: cs => cs.foldl (fun best d => if qdist v d < qdist v best then d else best) c

/-- Add the incoming error row to a pixel row (missing errors count as 0). -/
def addErrs : List U8Px → List Px → List Px
  | [], _ => []
  | p :: ps, [] => u8ToQpx p :: addErrs ps []
  | p :: ps, e :: es => pxAdd (u8ToQpx p) e :: addErrs ps es

/-- One Floyd–Steinberg pixel step: the working value plus the carry from the
left is mapped to its nearest palette color; the second component is the
quantization error. -/
def fsStep (pal : List U8Px) (v carry : Px) : U8Px × Px :=
  (nearestColorQ pal (pxAdd v carry),
   pxSub (pxAdd v carry) (u8ToQpx (nearestColorQ pal (pxAdd v carry))))

/-- Modelled from the spec: one raster row of Floyd–Steinberg diffusion.
Each pixel (already carrying the errors diffused from above) plus the 7/16
carry from its left neighbor is mapped to its nearest palette color; the
quantization error is recorded and 7/16 of it carries right. Returns the
quantized row and the per-pixel errors. -/
def fsScanRow (pal : List U8Px) : List Px → Px → List U8Px × List Px
  | [], _ => ([], [])
  | v :: vs, carry =>
    ((fsStep pal v carry).1 :: (fsScanRow pal vs (pxScale (7 / 16) (fsStep pal v carry).2)).1,
     (fsStep pal v carry).2 :: (fsScanRow pal vs (pxScale (7 / 16) (fsStep pal v carry).2)).2)

/-- Modelled from the spec: errors diffused to the next raster row — pixel
`j` of the next row receives 3/16 of the error of pixel `j+1` (its upper
right), 5/16 of pixel `j` (above), and 1/16 of pixel `j-1` (its upper
left). -/
def nextRowErrs (errs : List Px) : List Px :=
  (List.range errs.length).map (fun j =>
    pxAdd (pxAdd (pxScale (3 / 16) (errs.getD (j + 1) (0, 0, 0)))
                 (pxScale (5 / 16) (errs.getD j (0, 0, 0))))
          (pxScale (1 / 16) (if j = 0 then (0, 0, 0) else errs.getD (j - 1) (0, 0, 0))))

/-- Modelled from the spec: Floyd–Steinberg over the rows in raster order. -/
def fsRows (pal : List U8Px) : List (List U8Px) → List Px → List (List U8Px)
  | [], _ => []
  | row :: rest, inc =>
    (fsScanRow pal (addErrs row inc) (0, 0, 0)).1 ::
      fsRows pal rest (nextRowErrs (fsScanRow pal (addErrs row inc) (0, 0, 0)).2)

/-- Modelled from the spec: Floyd–Steinberg error-diffusion quantization of a
uint8 image against a fixed palette. -/
def fsDither (pal : List U8Px) (u : U8Img) : U8Img := fsRows pal u []

/-- Color component along one of the three axes of the RGB cube. -/
def compAx (ax : ℕ) (p : U8Px) : ℕ :=
  match ax with
  | 0 => p.1.val
  | 1 => p.2.1.val
  | _ => p.2.2.val

def axMax (box : List U8Px) (ax : ℕ) : ℕ := box.foldl (fun m p => max m (compAx ax p)) 0

def axMin (box : List U8Px) (ax : ℕ) : ℕ := box.foldl (fun m p => min m (compAx ax p)) 255

def axisRange (box : List U8Px) (ax : ℕ) : ℕ := axMax box ax - axMin box ax

/-- The axis of largest range of a color box (median-cut split axis). -/
def widestAxis (box : List U8Px) : ℕ :=
  if axisRange box 1 ≤ axisRange box 0 ∧ axisRange box 2 ≤ axisRange box 0 then 0
  else if axisRange box 2 ≤ axisRange box 1 then 1
  else 2

def boxRange (box : List U8Px) : ℕ :=
  max (axisRange box 0) (max (axisRange box 1) (axisRange box 2))

def sortByAxis (ax : ℕ) (box : List U8Px) : List U8Px :=
  List.insertionSort (fun a b => compAx ax a ≤ compAx ax b) box

/-- Modelled from the spec: median-cut partition of a color box into at most
`k` boxes — sort along the largest-range axis, split at the median, and
recurse with the split budget; a box of a single color (range 0) is not
split. The fuel is the recursion depth bound. -/
def mcSplit : ℕ → ℕ → List U8Px → List (List U8Px)
  | 0, _, box => [box]
  | fuel + 1, k, box =>
    if k ≤ 1 ∨ boxRange box = 0 then [box]
    else
      let sorted := sortByAxis (widestAxis box) box
      let half := sorted.length / 2
      mcSplit fuel (k - k / 2) (sorted.take half) ++ mcSplit fuel (k / 2) (sorted.drop half)

/-- Truncated mean of one color component over a box. -/
def boxAvgAx (box : List U8Px) (ax : ℕ) : ℕ := (box.map (compAx ax)).sum / box.length

/-- Representative (mean) color of a median-cut box. -/
def boxAverage (box : List U8Px) : U8Px :=
  (natToU8 (boxAvgAx box 0), natToU8 (boxAvgAx box 1), natToU8 (boxAvgAx box 2))

/-- Modelled from the spec: the palette built by `pil_image.quantize(colors)`
— a median-cut-style partition of the image's own pixels into at most
`colors` boxes, each represented by its mean color. -/
def medianCutPalette (colors : ℕ) (u : U8Img) : List U8Px :=
  if u.flatten = [] then [] else (mcSplit colors colors u.flatten).map boxAverage

/-- Modelled from the spec: `pil_image.quantize(colors, palette, dither)` —
re-quantize the image against the palette derived from its own pixels, with
nearest-color mapping or Floyd–Steinberg diffusion. -/
def quantizeImage (colors : ℕ) (d : DitherMode) (u : U8Img) : U8Img :=
  match d with
  | .none => u.map (List.map (fun p => nearestColorQ (medianCutPalette colors u) (u8ToQpx p)))
  | .floydSteinberg => fsDither (medianCutPalette colors u) u

/-- `Quantize.quantize`: per image, convert to uint8, build the palette from
that image, re-quantize against it (dither resolved by `ditherOf`), and
convert back to floats in `[0, 1]`.  No input raises. -/
def quantizeOp (images : List Img) (colors : ℕ) (dither : String) : List Img :=
  images.map (fun img => fromU8Img (quantizeImage colors (ditherOf dither) (toU8Img img)))

/-- The per-channel uint8 round trip applied by quantize, transpose and
rotate: `x ↦ floor(255 x) / 255`. -/
def quantPx (p : Px) : Px := fromU8Px (toU8Px p)

lemma mapE_cons_error {α β : Type} {f : α → Except String β} {a : α} {l : List α} {e : String}
    (h : f a = .error e) : mapE f (a :: l) = .error e := by
  simp [mapE, h]

lemma mapE_congr_ok {α β : Type} {f : α → Except String β} {g : α → β} {l : List α}
    (h : ∀ a ∈ l, f a = .ok (g a)) : mapE f l = .ok (l.map g) := by
  induction l with
  | nil => rfl
  | cons a as ih =>
    have ha := h a (by simp)
    have hrest := ih (fun x hx => h x (by simp [hx]))
    simp [mapE, ha, hrest]

lemma mapE_ok_mem {α β : Type} {f : α → Except String β} {l : List α} {res : List β}
    (h : mapE f l = .ok res) {r : β} (hr : r ∈ res) : ∃ a ∈ l, f a = .ok r := by
  induction l generalizing res with
  | nil =>
    simp only [mapE, Except.ok.injEq] at h
    subst h
    simp at hr
  | cons a as ih =>
    cases hfa : f a with
    | error e => rw [mapE, hfa] at h; simp at h
    | ok b =>
      cases hmt : mapE f as with
      | error e => rw [mapE, hfa, hmt] at h; simp at h
      | ok bs =>
        rw [mapE, hfa, hmt] at h
        simp only [Except.ok.injEq] at h
        subst h
        rcases List.mem_cons.mp hr with rfl | hr2
        · exact ⟨a, by simp, hfa⟩
        · obtain ⟨x, hx, hfx⟩ := ih hmt hr2
          exact ⟨x, by simp [hx], hfx⟩

lemma broadcastRows_self (src : Img) : broadcastRows src.length src = src := by
  unfold broadcastRows
  split_ifs with h
  · obtain ⟨a, rfl⟩ := List.length_eq_one.mp h
    rfl
  · rfl

lemma broadcastCols_self (w : ℕ) (row : List Px) (h : row.length = w) :
    broadcastCols w row = row := by
  unfold broadcastCols
  split_ifs with h1
  · obtain ⟨a, rfl⟩ := List.length_eq_one.mp h1
    simp only [List.length_singleton] at h
    rw [← h]
    rfl
  · rfl

lemma broadcastImg_self (src : Img)
    (hrect : ∀ row ∈ src, row.length = (src.headD []).length) :
    broadcastImg (imgDims src) src = src := by
  unfold broadcastImg imgDims
  calc (broadcastRows src.length src).map (broadcastCols (src.headD []).length)
      = src.map (broadcastCols (src.headD []).length) := by rw [broadcastRows_self]
    _ = src.map id := List.map_congr_left
        (fun row hr => broadcastCols_self _ row (hrect row hr))
    _ = src := List.map_id src

lemma imgDims_mapPx (f : Px → Px) (img : Img) :
    imgDims (img.map (List.map f)) = imgDims img := by
  cases img with
  | nil => rfl
  | cons a l => simp [imgDims]

lemma mem_broadcastCols {w : ℕ} {row : List Px} {p : Px}
    (h : p ∈ broadcastCols w row) : p ∈ row := by
  unfold broadcastCols at h
  split_ifs at h with h1
  · obtain ⟨a, rfl⟩ := List.length_eq_one.mp h1
    have := List.eq_of_mem_replicate h
    simp only [List.headD] at this
    simp [this]
  · exact h

lemma mem_broadcastRows {h : ℕ} {rows : Img} {row : List Px}
    (hr : row ∈ broadcastRows h rows) : row ∈ rows := by
  unfold broadcastRows at hr
  split_ifs at hr with h1
  · obtain ⟨a, rfl⟩ := List.length_eq_one.mp h1
    have := List.eq_of_mem_replicate hr
    simp only [List.headD] at this
    simp [this]
  · exact hr

lemma mem_broadcastImg {t : ℕ × ℕ} {src : Img} {p : Px}
    (h : p ∈ (broadcastImg t src).flatten) : p ∈ src.flatten := by
  rw [List.mem_flatten] at h
  obtain ⟨r2, hr2, hp⟩ := h
  unfold broadcastImg at hr2
  rw [List.mem_map] at hr2
  obtain ⟨r1, hr1, rfl⟩ := hr2
  exact List.mem_flatten.mpr ⟨r1, mem_broadcastRows hr1, mem_broadcastCols hp⟩

lemma assignBroadcast_ok_mem {t : ℕ × ℕ} {src out : Img}
    (h : assignBroadcast t src = .ok out) {p : Px} (hp : p ∈ out.flatten) :
    p ∈ src.flatten := by
  unfold assignBroadcast at h
  split_ifs at h with h1
  simp only [Except.ok.injEq] at h
  subst h
  exact mem_broadcastImg hp

lemma fromU8Px_lattice (q : U8Px) : pxOnLattice (fromU8Px q) :=
  ⟨⟨q.1.val, Nat.le_of_lt_succ q.1.isLt, rfl⟩,
   ⟨q.2.1.val, Nat.le_of_lt_succ q.2.1.isLt, rfl⟩,
   ⟨q.2.2.val, Nat.le_of_lt_succ q.2.2.isLt, rfl⟩⟩

lemma fromU8Img_lattice {u : U8Img} {p : Px} (hp : p ∈ (fromU8Img u).flatten) :
    pxOnLattice p := by
  rw [List.mem_flatten] at hp
  obtain ⟨row, hrow, hp⟩ := hp
  unfold fromU8Img at hrow
  rw [List.mem_map] at hrow
  obtain ⟨row0, _, rfl⟩ := hrow
  rw [List.mem_map] at hp
  obtain ⟨q, _, rfl⟩ := hp
  exact fromU8Px_lattice q

lemma fromU8_toU8_fix {x : ℚ} (h : onLattice x) : fromU8 (toU8 x) = x := by
  obtain ⟨n, hn, rfl⟩ := h
  unfold toU8 natToU8 fromU8
  have h1 : ((n : ℚ) / 255) * 255 = (n : ℚ) := by
    rw [div_mul_cancel₀]
    norm_num
  rw [h1]
  rw [Int.floor_natCast]
  simp [min_eq_left hn]

lemma quantPx_fix {p : Px} (h : pxOnLattice p) : quantPx p = p := by
  obtain ⟨x, y, z⟩ := p
  obtain ⟨h1, h2, h3⟩ := h
  unfold quantPx toU8Px fromU8Px
  simp only []
  rw [fromU8_toU8_fix h1, fromU8_toU8_fix h2, fromU8_toU8_fix h3]

lemma transpose_lookup_none {method : String} (h : method ∉ transposeMethodNames) :
    transposeMethods.lookup method = none := by
  simp only [transposeMethodNames, transposeMethods, List.map_cons, List.map_nil,
    List.mem_cons, List.not_mem_nil, or_false, not_or] at h
  obtain ⟨h1, h2, h3, h4, h5, h6, h7⟩ := h
  simp [transposeMethods, List.lookup, beq_eq_false_iff_ne.mpr h1, beq_eq_false_iff_ne.mpr h2,
    beq_eq_false_iff_ne.mpr h3, beq_eq_false_iff_ne.mpr h4, beq_eq_false_iff_ne.mpr h5,
    beq_eq_false_iff_ne.mpr h6, beq_eq_false_iff_ne.mpr h7]

lemma resampler_lookup_none {resample : String} (h : resample ∉ resamplerNames) :
    resamplers.lookup resample = none := by
  simp only [resamplerNames, resamplers, List.map_cons, List.map_nil,
    List.mem_cons, List.not_mem_nil, or_false, not_or] at h
  obtain ⟨h1, h2, h3⟩ := h
  simp [resamplers, List.lookup, beq_eq_false_iff_ne.mpr h1, beq_eq_false_iff_ne.mpr h2,
    beq_eq_false_iff_ne.mpr h3]

lemma broadcastDim_idem {a b c : ℕ} (h : broadcastDim a b = some c) :
    broadcastDim a c = some c := by
  unfold broadcastDim at h ⊢
  split_ifs at h with h1 h2 h3 <;> simp only [Option.some.injEq] at h <;> subst h
  · simp
  · simp [h1, h2]
  · simp

lemma broadcastShape_idem {s t u : Shape4} (h : broadcastShape s t = some u) :
    broadcastShape s u = some u := by
  unfold broadcastShape at h ⊢
  cases hb : broadcastDim s.b t.b with
  | none => rw [hb] at h; simp at h
  | some bv =>
    rw [hb] at h
    cases hh : broadcastDim s.h t.h with
    | none => rw [hh] at h; simp at h
    | some hv =>
      rw [hh] at h
      cases hw : broadcastDim s.w t.w with
      | none => rw [hw] at h; simp at h
      | some wv =>
        rw [hw] at h
        cases hc : broadcastDim s.c t.c with
        | none => rw [hc] at h; simp at h
        | some cv =>
          rw [hc] at h
          simp only [Option.some.injEq] at h
          subst h
          rw [broadcastDim_idem hb, broadcastDim_idem hh, broadcastDim_idem hw,
            broadcastDim_idem hc]

lemma mcSplit_ne_nil (fuel k : ℕ) (box : List U8Px) : mcSplit fuel k box ≠ [] := by
  induction fuel generalizing k box with
  | zero => simp [mcSplit]
  | succ n ih =>
    rw [mcSplit]
    split_ifs with h
    · simp
    · intro hc
      exact ih (k - k / 2) _ (List.append_eq_nil.mp hc).1

lemma mcSplit_length (fuel k : ℕ) (box : List U8Px) :
    (mcSplit fuel k box).length ≤ max k 1 := by
  induction fuel generalizing k box with
  | zero => simp [mcSplit]
  | succ n ih =>
    rw [mcSplit]
    split_ifs with h
    · simp
    · push_neg at h
      have hk : 2 ≤ k := by omega
      have e1 : max (k - k / 2) 1 = k - k / 2 := Nat.max_eq_left (by omega)
      have e2 : max (k / 2) 1 = k / 2 := Nat.max_eq_left (by omega)
      have e3 : max k 1 = k := Nat.max_eq_left (by omega)
      rw [List.length_append, e3]
      have h1 := ih (k - k / 2)
        ((sortByAxis (widestAxis box) box).take ((sortByAxis (widestAxis box) box).length / 2))
      have h2 := ih (k / 2)
        ((sortByAxis (widestAxis box) box).drop ((sortByAxis (widestAxis box) box).length / 2))
      rw [e1] at h1
      rw [e2] at h2
      omega

lemma foldl_min_mem (v : Px) :
    ∀ (ds : List U8Px) (acc : U8Px),
      ds.foldl (fun best d => if qdist v d < qdist v best then d else best) acc ∈ acc :: ds := by
  intro ds
  induction ds with
  | nil => intro acc; simp
  | cons d ds ih =>
    intro acc
    simp only [List.foldl_cons]
    have h3 := ih (if qdist v d < qdist v acc then d else acc)
    rcases List.mem_cons.mp h3 with h4 | h4
    · rw [h4]
      split_ifs
      · simp
      · simp
    · exact List.mem_cons_of_mem _ (List.mem_cons_of_mem _ h4)

lemma nearestColorQ_mem {pal : List U8Px} (h : pal ≠ []) (v : Px) :
    nearestColorQ pal v ∈ pal := by
  cases pal with
  | nil => exact absurd rfl h
  | cons c cs => exact foldl_min_mem v cs c

lemma fsScanRow_mem {pal : List U8Px} (h : pal ≠ []) :
    ∀ (vs : List Px) (carry : Px) (q : U8Px), q ∈ (fsScanRow pal vs carry).1 → q ∈ pal := by
  intro vs
  induction vs with
  | nil => intro carry q hq; simp [fsScanRow] at hq
  | cons v vs ih =>
    intro carry q hq
    rw [fsScanRow] at hq
    rcases List.mem_cons.mp hq with rfl | hq2
    · exact nearestColorQ_mem h _
    · exact ih _ q hq2

lemma fsRows_mem {pal : List U8Px} (h : pal ≠ []) :
    ∀ (rows : List (List U8Px)) (inc : List Px) (q : U8Px),
      q ∈ (fsRows pal rows inc).flatten → q ∈ pal := by
  intro rows
  induction rows with
  | nil => intro inc q hq; simp [fsRows] at hq
  | cons row rest ih =>
    intro inc q hq
    rw [fsRows, List.flatten_cons] at hq
    rcases List.mem_append.mp hq with h1 | h2
    · exact fsScanRow_mem h _ _ q h1
    · exact ih _ q h2

lemma mem_map_flatten {f : U8Px → U8Px} {u : U8Img} {q : U8Px}
    (hq : q ∈ (u.map (List.map f)).flatten) : ∃ p ∈ u.flatten, q = f p := by
  rw [← List.map_flatten] at hq
  rw [List.mem_map] at hq
  obtain ⟨p, hp, rfl⟩ := hq
  exact ⟨p, hp, rfl⟩

lemma medianCutPalette_ne_nil {colors : ℕ} {u : U8Img} (h : u.flatten ≠ []) :
    medianCutPalette colors u ≠ [] := by
  unfold medianCutPalette
  rw [if_neg h]
  intro hc
  exact mcSplit_ne_nil colors colors u.flatten (by simpa using hc)

lemma medianCutPalette_length {colors : ℕ} (h : 1 ≤ colors) (u : U8Img) :
    (medianCutPalette colors u).length ≤ colors := by
  unfold medianCutPalette
  split_ifs with he
  · simp
  · rw [List.length_map]
    have h1 := mcSplit_length colors colors u.flatten
    have h2 : max colors 1 = colors := Nat.max_eq_left h
    omega

lemma fsRows_flatten_nil {pal : List U8Px} :
    ∀ (rows : List (List U8Px)) (inc : List Px), (∀ row ∈ rows, row = []) →
      (fsRows pal rows inc).flatten = [] := by
  intro rows
  induction rows with
  | nil => intro inc _; rfl
  | cons row rest ih =>
    intro inc hall
    have h1 : row = [] := hall row (by simp)
    subst h1
    rw [fsRows, List.flatten_cons]
    have h2 := ih (nextRowErrs (fsScanRow pal (addErrs [] inc) (0, 0, 0)).2)
      (fun r hr => hall r (by simp [hr]))
    simpa [addErrs, fsScanRow] using h2

lemma quantizeImage_mem {colors : ℕ} {d : DitherMode} {u : U8Img} {q : U8Px}
    (hq : q ∈ (quantizeImage colors d u).flatten) :
    q ∈ medianCutPalette colors u := by
  by_cases hemp : u.flatten = []
  · exfalso
    cases d with
    | none =>
      simp only [quantizeImage] at hq
      obtain ⟨p, hp, _⟩ := mem_map_flatten hq
      rw [hemp] at hp
      simp at hp
    | floydSteinberg =>
      simp only [quantizeImage, fsDither] at hq
      have hall : ∀ row ∈ u, row = [] := List.flatten_eq_nil_iff.mp hemp
      rw [fsRows_flatten_nil u [] hall] at hq
      simp at hq
  · have hpal := @medianCutPalette_ne_nil colors u hemp
    cases d with
    | none =>
      simp only [quantizeImage] at hq
      obtain ⟨p, hp, rfl⟩ := mem_map_flatten hq
      exact nearestColorQ_mem hpal _
    | floydSteinberg =>
      simp only [quantizeImage, fsDither] at hq
      exact fsRows_mem hpal u [] q hq

lemma rect_mapPx {img : Img} (f : Px → Px)
    (hrect : ∀ row ∈ img, row.length = (img.headD []).length) :
    ∀ row ∈ img.map (List.map f),
      row.length = ((img.map (List.map f)).headD []).length := by
  intro row hr
  rw [List.mem_map] at hr
  obtain ⟨r0, hr0, rfl⟩ := hr
  have h2 : ((img.map (List.map f)).headD []).length = (img.headD []).length := by
    cases img with
    | nil => rfl
    | cons a l => simp
  rw [List.length_map, h2]
  exact hrect r0 hr0

lemma fromU8Img_toU8Img (img : Img) :
    fromU8Img (toU8Img img) = img.map (List.map quantPx) := by
  unfold fromU8Img toU8Img quantPx
  rw [List.map_map]
  simp [List.map_map, Function.comp]

lemma assignBroadcast_mapPx (img : Img) (f : Px → Px)
    (hrect : ∀ row ∈ img, row.length = (img.headD []).length) :
    assignBroadcast (imgDims img) (img.map (List.map f)) = .ok (img.map (List.map f)) := by
  have hdims := imgDims_mapPx f img
  unfold assignBroadcast
  rw [if_pos (by rw [hdims]; exact ⟨Or.inl rfl, Or.inl rfl⟩)]
  rw [← hdims, broadcastImg_self _ (rect_mapPx f hrect)]

lemma rotateOne_zero_ok {fillColor : String} {c : RGB}
    (hfill : parseFillColor fillColor = .ok c) (img : Img)
    (hrect : ∀ row ∈ img, row.length = (img.headD []).length) :
    rotateOne pilRotateZero "Nearest Neighbor" fillColor img =
      .ok (img.map (List.map quantPx)) := by
  unfold rotateOne
  rw [hfill]
  show assignBroadcast (imgDims img) (fromU8Img (toU8Img img)) = .ok (img.map (List.map quantPx))
  rw [fromU8Img_toU8Img]
  exact assignBroadcast_mapPx img quantPx hrect

/-- Claim C9: the fill-color parser maps hex `#ff0000`, bare and
parenthesized decimal triplets (after space stripping) to (255,0,0), maps the
empty spec to (0,0,0) via the `#000000` default, accepts named colors, and
rejects `#zz0000` as a fatal invalid-color error. -/
theorem fill_color_parser_cases :
    parseFillColor "#ff0000" = .ok (255, 0, 0) ∧
    parseFillColor "255,0,0" = .ok (255, 0, 0) ∧
    parseFillColor "(255, 0 ,0)" = .ok (255, 0, 0) ∧
    parseFillColor "" = .ok (0, 0, 0) ∧
    parseFillColor "red" = .ok (255, 0, 0) ∧
    parseFillColor "#zz0000" = .error "Invalid color format: #zz0000" := by
  refine ⟨?_, ?_, ?_, ?_, ?_, ?_⟩ <;> rfl

/-- Claim C2 (code bug): on a non-square image the dimension-swapping
transpose methods cannot be stored back into the preallocated
`zeros_like(image)` buffer, so the call raises instead of returning a batch
with height and width swapped.  Shown here on a 1×2 image rotated 90°. -/
theorem transpose_nonsquare_raises :
    transposeOp [[[((0 : ℚ), (0 : ℚ), (0 : ℚ)), ((1 : ℚ), (1 : ℚ), (1 : ℚ))]]] "Rotate 90°" =
      .error "RuntimeError: shape mismatch in batch assignment" := by
  rfl

/-- Claim C1 counterexample: `quantize` does not raise on an unrecognized
dither string — `dither_option` silently falls back to `Image.Dither.NONE`,
so the call returns exactly the undithered result. -/
theorem quantize_dither_fallback :
    quantizeOp [[[((1 : ℚ) / 2, (1 : ℚ) / 3, (1 : ℚ) / 4)]]] 4 "bogus-dither" =
      quantizeOp [[[((1 : ℚ) / 2, (1 : ℚ) / 3, (1 : ℚ) / 4)]]] 4 "none" ∧
    ditherOf "bogus-dither" = DitherMode.none :=
  ⟨rfl, rfl⟩

/-- Claim C1 (amended): an unrecognized blend mode, transpose method, or
resample method raises and produces no output, but quantize's dither string
is not validated — any string other than "floyd-steinberg" silently selects
no dithering. -/
theorem enum_strings_fatal_amended :
    (∀ mode : String, mode ∉ validBlendModes → ∀ a b : ℝ,
        blendModePx mode a b = .error ("Unsupported blend mode: " ++ mode)) ∧
    (∀ method : String, method ∉ transposeMethodNames → ∀ (img : Img) (rest : List Img),
        transposeOp (img :: rest) method = .error ("KeyError: " ++ method)) ∧
    (∀ resample : String, resample ∉ resamplerNames →
        ∀ (pil : Resampling → RGB → U8Img → U8Img) (img : Img) (rest : List Img),
          rotateOp pil (img :: rest) resample "" = .error ("KeyError: " ++ resample)) ∧
    (∀ dither : String, dither ≠ "floyd-steinberg" → ditherOf dither = DitherMode.none) := by
  refine ⟨?_, ?_, ?_, ?_⟩
  · intro mode hm a b
    simp only [validBlendModes, List.mem_cons, List.not_mem_nil, or_false, not_or] at hm
    obtain ⟨h1, h2, h3, h4, h5⟩ := hm
    simp [blendModePx, h1, h2, h3, h4, h5]
  · intro method hm img rest
    have hlk := transpose_lookup_none hm
    have h1 : transposeOne method img = .error ("KeyError: " ++ method) := by
      unfold transposeOne
      rw [hlk]
    exact mapE_cons_error h1
  · intro resample hr pil img rest
    have hlk := resampler_lookup_none hr
    have h1 : rotateOne pil resample "" img = .error ("KeyError: " ++ resample) := by
      unfold rotateOne
      have hfc : parseFillColor "" = .ok (0, 0, 0) := rfl
      rw [hfc, hlk]
    exact mapE_cons_error h1
  · intro dither hd
    simp [ditherOf, hd]

/-- Witness for the amended claim C1 at the concrete string "bogus". -/
theorem enum_strings_fatal_amended_witness :
    ("bogus" ∉ validBlendModes ∧ "bogus" ∉ transposeMethodNames ∧
      "bogus" ∉ resamplerNames ∧ "bogus" ≠ "floyd-steinberg") ∧
    blendModePx "bogus" 0 0 = .error ("Unsupported blend mode: " ++ "bogus") ∧
    transposeOp [[]] "bogus" = .error ("KeyError: " ++ "bogus") ∧
    rotateOp pilRotateZero [[]] "bogus" "" = .error ("KeyError: " ++ "bogus") ∧
    ditherOf "bogus" = DitherMode.none := by
  refine ⟨⟨by decide, by decide, by decide, by decide⟩, ?_, ?_, ?_, ?_⟩
  · exact enum_strings_fatal_amended.1 "bogus" (by decide) 0 0
  · exact enum_strings_fatal_amended.2.1 "bogus" (by decide) [] []
  · exact enum_strings_fatal_amended.2.2.1 "bogus" (by decide) pilRotateZero [] []
  · exact enum_strings_fatal_amended.2.2.2 "bogus" (by decide)

/-- Claim C3 counterexample: rotate with angle 0 and nearest resampling does
not return the input exactly — the uint8 round trip maps the channel value
1/2 to 127/255. -/
theorem rotate_zero_not_identity :
    rotateOp pilRotateZero [[[((1 : ℚ) / 2, (1 : ℚ) / 2, (1 : ℚ) / 2)]]] "Nearest Neighbor" "" ≠
      .ok [[[((1 : ℚ) / 2, (1 : ℚ) / 2, (1 : ℚ) / 2)]]] := by
  intro h
  have h0 : rotateOp pilRotateZero [[[((1 : ℚ) / 2, (1 : ℚ) / 2, (1 : ℚ) / 2)]]]
      "Nearest Neighbor" "" =
      .ok [[[((127 : ℚ) / 255, (127 : ℚ) / 255, (127 : ℚ) / 255)]]] := by
    with_unfolding_all rfl
  rw [h0] at h
  simp only [Except.ok.injEq, List.cons.injEq, Prod.mk.injEq, and_true] at h
  norm_num at h

/-- Claim C3 (amended): rotate with angle 0 and nearest resampling returns
the per-channel 8-bit quantization `x ↦ floor(255 x)/255` of the input; in
particular it returns the input exactly when every channel value is an
integer multiple of 1/255. -/
theorem rotate_zero_amended (images : List Img) (fillColor : String) (c : RGB)
    (hrect : ∀ img ∈ images, ∀ row ∈ img, row.length = (img.headD []).length)
    (hfill : parseFillColor fillColor = .ok c) :
    rotateOp pilRotateZero images "Nearest Neighbor" fillColor =
      .ok (images.map (fun img => img.map (List.map quantPx))) ∧
    ((∀ img ∈ images, ∀ p ∈ img.flatten, pxOnLattice p) →
      rotateOp pilRotateZero images "Nearest Neighbor" fillColor = .ok images) := by
  have hmain : rotateOp pilRotateZero images "Nearest Neighbor" fillColor =
      .ok (images.map (fun img => img.map (List.map quantPx))) :=
    mapE_congr_ok (fun img hi => rotateOne_zero_ok hfill img (hrect img hi))
  refine ⟨hmain, fun hlat => ?_⟩
  rw [hmain]
  have hid : images.map (fun img => img.map (List.map quantPx)) = images := by
    have hall : ∀ img ∈ images, img.map (List.map quantPx) = img := by
      intro img hi
      have hrow : ∀ row ∈ img, List.map quantPx row = row := by
        intro row hrr
        have hpx : ∀ p ∈ row, quantPx p = p := fun p hp =>
          quantPx_fix (hlat img hi p (List.mem_flatten.mpr ⟨row, hrr, hp⟩))
        calc List.map quantPx row = row.map id := List.map_congr_left hpx
          _ = row := List.map_id row
      calc img.map (List.map quantPx) = img.map id := List.map_congr_left hrow
        _ = img := List.map_id img
    calc images.map (fun img => img.map (List.map quantPx)) = images.map id :=
        List.map_congr_left hall
      _ = images := List.map_id images
  rw [hid]

/-- Witness for the amended claim C3 on a 1×1 all-black batch. -/
theorem rotate_zero_amended_witness :
    parseFillColor "" = .ok (0, 0, 0) ∧
    rotateOp pilRotateZero [[[((0 : ℚ), (0 : ℚ), (0 : ℚ))]]] "Nearest Neighbor" "" =
      .ok [[[((0 : ℚ), (0 : ℚ), (0 : ℚ))]]] := by
  refine ⟨rfl, ?_⟩
  refine (rotate_zero_amended [[[(0, 0, 0)]]] "" (0, 0, 0) ?_ rfl).2 ?_
  · intro img hi row hr
    simp only [List.mem_singleton] at hi
    subst hi
    simp only [List.mem_singleton] at hr
    subst hr
    rfl
  · intro img hi p hp
    simp only [List.mem_singleton] at hi
    subst hi
    simp only [List.flatten, List.mem_singleton, List.append_nil] at hp
    subst hp
    exact ⟨⟨0, by norm_num⟩, ⟨0, by norm_num⟩, ⟨0, by norm_num⟩⟩

/-- Claim C4: on same-shaped inputs in `[0, 1]` with factor in `[0, 1]`, each
blend mode computes exactly the per-pixel formula of the spec and the result
is `clamp(img1 * (1 - factor) + blended * factor, 0, 1)`. -/
theorem blend_mode_formulas (a b f : ℝ)
    (ha0 : 0 ≤ a) (ha1 : a ≤ 1) (hb0 : 0 ≤ b) (hb1 : b ≤ 1) (hf0 : 0 ≤ f) (hf1 : f ≤ 1) :
    blendImagesPx a b f "normal" = .ok (clampR (a * (1 - f) + b * f) 0 1) ∧
    blendImagesPx a b f "multiply" = .ok (clampR (a * (1 - f) + a * b * f) 0 1) ∧
    blendImagesPx a b f "screen" =
      .ok (clampR (a * (1 - f) + (1 - (1 - a) * (1 - b)) * f) 0 1) ∧
    blendImagesPx a b f "overlay" =
      .ok (clampR (a * (1 - f) +
        (if a ≤ 0.5 then 2 * a * b else 1 - 2 * (1 - a) * (1 - b)) * f) 0 1) ∧
    blendImagesPx a b f "soft_light" =
      .ok (clampR (a * (1 - f) +
        (if b ≤ 0.5 then a - (1 - 2 * b) * a * (1 - a)
         else a + (2 * b - 1) *
           ((if a ≤ 0.25 then ((16 * a - 12) * a + 4) * a else Real.sqrt a) - a)) * f) 0 1) := by
  exact ⟨rfl, rfl, rfl, rfl, rfl⟩

/-- Witness for claim C4 at `img1 = 1`, `img2 = 1/2`, `factor = 1`. -/
theorem blend_mode_formulas_witness :
    ((0 : ℝ) ≤ 1 ∧ (1 : ℝ) ≤ 1 ∧ (0 : ℝ) ≤ 1 / 2 ∧ (1 : ℝ) / 2 ≤ 1) ∧
    blendImagesPx 1 (1 / 2) 1 "normal" = .ok (clampR (1 * (1 - 1) + 1 / 2 * 1) 0 1) := by
  refine ⟨⟨by norm_num, by norm_num, by norm_num, by norm_num⟩, ?_⟩
  exact (blend_mode_formulas 1 (1 / 2) 1 (by norm_num) (by norm_num) (by norm_num)
    (by norm_num) (by norm_num) (by norm_num)).1

/-- Claim C5 counterexample: a batch-size mismatch (2 versus 1) with equal
spatial dimensions and channels does not raise — the full-shape test routes
through the resize (a spatial no-op) and the final mix broadcasts the
batch-1 tensor, returning a batch-2 result. -/
theorem blend_batch_mismatch_broadcasts :
    blendImagesShape ⟨2, 4, 4, 3⟩ ⟨1, 4, 4, 3⟩ "normal" = .ok ⟨2, 4, 4, 3⟩ := by
  rfl

/-- Claim C5 (amended): for every valid mode, image2 is resized to image1's
height and width whenever the full shapes differ (even when the spatial
dimensions already match), and the call then returns the torch broadcast of
the two shapes; batch and channel mismatches are not checked — they raise
only when the shapes fail to broadcast (a size-1 batch or channel dimension
silently broadcasts). -/
theorem blend_shape_semantics (s1 s2 : Shape4) (mode : String)
    (hm : mode ∈ validBlendModes) :
    blendImagesShape s1 s2 mode =
      match broadcastShape s1 (if s1 = s2 then s2 else commonUpscaleShape s2 s1.w s1.h) with
      | some out => .ok out
      | none => .error "RuntimeError: broadcast failure" := by
  have hm2 : mode = "normal" ∨ mode = "multiply" ∨ mode = "screen" ∨
      mode = "overlay" ∨ mode = "soft_light" := by
    simpa [validBlendModes] using hm
  rcases hm2 with rfl | rfl | rfl | rfl | rfl
  · rfl
  all_goals {
    cases hb : broadcastShape s1 (if s1 = s2 then s2 else commonUpscaleShape s2 s1.w s1.h) with
    | none => simp [blendImagesShape, blendModeShape, hb]
    | some s => simp [blendImagesShape, blendModeShape, hb, broadcastShape_idem hb]
  }

/-- Witness for the amended claim C5 at concrete mismatched shapes. -/
theorem blend_shape_semantics_witness :
    ("normal" ∈ validBlendModes) ∧
    blendImagesShape ⟨3, 4, 5, 3⟩ ⟨1, 7, 9, 1⟩ "normal" =
      (match broadcastShape ⟨3, 4, 5, 3⟩
          (if (⟨3, 4, 5, 3⟩ : Shape4) = ⟨1, 7, 9, 1⟩ then ⟨1, 7, 9, 1⟩
           else commonUpscaleShape ⟨1, 7, 9, 1⟩ 5 4) with
        | some out => .ok out
        | none => .error "RuntimeError: broadcast failure") :=
  ⟨by decide, blend_shape_semantics ⟨3, 4, 5, 3⟩ ⟨1, 7, 9, 1⟩ "normal" (by decide)⟩

/-- Claim C6: the Gaussian kernel samples a `(2r+1)×(2r+1)` grid whose
coordinates are linearly spaced over `[-1, 1]` independently of `r` (the
endpoints are always `-1` and `1`), evaluates `exp(-(x²+y²)/(2σ²))`, and
after normalization its entries sum to 1 within tolerance `1e-5`. -/
theorem gaussian_kernel_sums_to_one (r : ℕ) (σ : ℝ) (hr : 1 ≤ r)
    (hσ1 : 1 / 10 ≤ σ) (hσ2 : σ ≤ 10) :
    |(∑ i ∈ Finset.range (2 * r + 1), ∑ j ∈ Finset.range (2 * r + 1),
        gaussianKernelN (2 * r + 1) σ i j) - 1| ≤ 1 / 100000 ∧
    linspace (2 * r + 1) 0 = -1 ∧ linspace (2 * r + 1) (2 * r) = 1 := by
  have hne : (Finset.range (2 * r + 1)).Nonempty := by
    rw [Finset.nonempty_range_iff]
    omega
  have hpos : 0 < gaussianKernelSum (2 * r + 1) σ := by
    apply Finset.sum_pos (fun i _ => ?_) hne
    exact Finset.sum_pos (fun j _ => Real.exp_pos _) hne
  refine ⟨?_, ?_, ?_⟩
  · have hsum : ∑ i ∈ Finset.range (2 * r + 1), ∑ j ∈ Finset.range (2 * r + 1),
        gaussianKernelN (2 * r + 1) σ i j = 1 := by
      unfold gaussianKernelN
      simp_rw [← Finset.sum_div]
      exact div_self hpos.ne'
    rw [hsum]
    norm_num
  · unfold linspace
    norm_num
  · unfold linspace
    have hr0 : (0 : ℝ) < (r : ℝ) := by exact_mod_cast Nat.lt_of_lt_of_le Nat.zero_lt_one hr
    push_cast
    field_simp
    ring

/-- Witness for claim C6 at radius 1 and sigma 1. -/
theorem gaussian_kernel_sums_to_one_witness :
    ((1 : ℕ) ≤ 1 ∧ (1 : ℝ) / 10 ≤ 1 ∧ (1 : ℝ) ≤ 10) ∧
    (|(∑ i ∈ Finset.range (2 * 1 + 1), ∑ j ∈ Finset.range (2 * 1 + 1),
        gaussianKernelN (2 * 1 + 1) 1 i j) - 1| ≤ 1 / 100000 ∧
      linspace (2 * 1 + 1) 0 = -1 ∧ linspace (2 * 1 + 1) (2 * 1) = 1) :=
  ⟨⟨by norm_num, by norm_num, by norm_num⟩,
   gaussian_kernel_sums_to_one 1 1 (by norm_num) (by norm_num) (by norm_num)⟩

/-- Claim C7: for radius `r ≥ 1` and alpha in `[0.1, 5]`, every sharpen
kernel cell is `-alpha` except the center, which is `alpha * (2r+1)²`, and
every channel value of the sharpen output is clamped into `[0, 1]` whatever
the unclamped convolution value is. -/
theorem sharpen_kernel_and_clamp (r : ℕ) (α : ℚ) (hr : 1 ≤ r)
    (hα1 : 1 / 10 ≤ α) (hα2 : α ≤ 5) :
    (∀ i j, i < 2 * r + 1 → j < 2 * r + 1 →
        sharpenKernel (2 * r + 1) α i j =
          if i = r ∧ j = r then α * ((2 * r + 1 : ℚ)) ^ 2 else -α) ∧
    (∀ (img : ℤ → ℤ → ℚ) (y x : ℤ),
        0 ≤ sharpenPx r α img y x ∧ sharpenPx r α img y x ≤ 1) := by
  constructor
  · intro i j hi hj
    unfold sharpenKernel
    have hc : (2 * r + 1) / 2 = r := by omega
    rw [hc]
    split_ifs with h
    · push_cast
      ring
    · ring
  · intro img y x
    unfold sharpenPx clampQ
    constructor
    · exact le_min (le_max_right _ 0) zero_le_one
    · exact min_le_right _ 1

/-- Witness for claim C7 at radius 1 and alpha 1 on the zero image. -/
theorem sharpen_kernel_and_clamp_witness :
    ((1 : ℕ) ≤ 1 ∧ (1 : ℚ) / 10 ≤ 1 ∧ (1 : ℚ) ≤ 5) ∧
    (∀ i j, i < 2 * 1 + 1 → j < 2 * 1 + 1 →
        sharpenKernel (2 * 1 + 1) 1 i j =
          if i = 1 ∧ j = 1 then 1 * ((2 * 1 + 1 : ℚ)) ^ 2 else -1) ∧
    (∀ (img : ℤ → ℤ → ℚ) (y x : ℤ),
        0 ≤ sharpenPx 1 1 img y x ∧ sharpenPx 1 1 img y x ≤ 1) :=
  ⟨⟨by norm_num, by norm_num, by norm_num⟩,
   sharpen_kernel_and_clamp 1 1 (by norm_num) (by norm_num) (by norm_num)⟩

/-- Claim C8: each image returned by quantize contains at most `colors`
distinct RGB pixel values, and the image at batch position `b` depends only
on the input image at position `b` (the palette is recomputed from that
image's own pixels, not shared across the batch). -/
theorem quantize_palette_card (images images2 : List Img) (colors : ℕ) (dither : String)
    (h1 : 1 ≤ colors) (h2 : colors ≤ 256) :
    (∀ (bIdx : ℕ) (img : Img), images[bIdx]? = some img → images2[bIdx]? = some img →
        (quantizeOp images colors dither)[bIdx]? = (quantizeOp images2 colors dither)[bIdx]?) ∧
    (∀ oimg ∈ quantizeOp images colors dither, oimg.flatten.toFinset.card ≤ colors) := by
  constructor
  · intro bIdx img hb hb2
    unfold quantizeOp
    rw [List.getElem?_map, List.getElem?_map, hb, hb2]
  · intro oimg ho
    unfold quantizeOp at ho
    rw [List.mem_map] at ho
    obtain ⟨img, hi, rfl⟩ := ho
    have hsub : ∀ p ∈ (fromU8Img (quantizeImage colors (ditherOf dither) (toU8Img img))).flatten,
        p ∈ (medianCutPalette colors (toU8Img img)).map fromU8Px := by
      intro p hp
      unfold fromU8Img at hp
      rw [← List.map_flatten, List.mem_map] at hp
      obtain ⟨q, hq, rfl⟩ := hp
      exact List.mem_map_of_mem _ (quantizeImage_mem hq)
    have hcard : (fromU8Img (quantizeImage colors (ditherOf dither) (toU8Img img))).flatten.toFinset.card ≤
        ((medianCutPalette colors (toU8Img img)).map fromU8Px).toFinset.card := by
      apply Finset.card_le_card
      intro x hx
      rw [List.mem_toFinset] at hx ⊢
      exact hsub x hx
    calc (fromU8Img (quantizeImage colors (ditherOf dither) (toU8Img img))).flatten.toFinset.card
        ≤ ((medianCutPalette colors (toU8Img img)).map fromU8Px).toFinset.card := hcard
      _ ≤ ((medianCutPalette colors (toU8Img img)).map fromU8Px).length :=
        List.toFinset_card_le _
      _ = (medianCutPalette colors (toU8Img img)).length := List.length_map _ _
      _ ≤ colors := medianCutPalette_length h1 _

/-- Witness for claim C8 with two colors on a two-pixel image. -/
theorem quantize_palette_card_witness :
    ((1 : ℕ) ≤ 2 ∧ (2 : ℕ) ≤ 256) ∧
    (∀ oimg ∈ quantizeOp [[[((0 : ℚ), (0 : ℚ), (0 : ℚ)), ((1 : ℚ), (1 : ℚ), (1 : ℚ))]]] 2 "none",
        oimg.flatten.toFinset.card ≤ 2) :=
  ⟨⟨by decide, by decide⟩,
   (quantize_palette_card [[[((0 : ℚ), (0 : ℚ), (0 : ℚ)), ((1 : ℚ), (1 : ℚ), (1 : ℚ))]]]
      [[[((0 : ℚ), (0 : ℚ), (0 : ℚ)), ((1 : ℚ), (1 : ℚ), (1 : ℚ))]]] 2 "none"
      (by decide) (by decide)).2⟩

/-- Claim C10: every channel value output by quantize, transpose, and rotate
is `n/255` for an integer `0 ≤ n ≤ 255` (each image passes through uint8 and
is divided by 255), and the uint8 round trip moves every channel value that
is not such a multiple, so these operations do not preserve off-lattice
inputs. -/
theorem eight_bit_lattice :
    (∀ (images : List Img) (colors : ℕ) (dither : String),
        ∀ oimg ∈ quantizeOp images colors dither, ∀ p ∈ oimg.flatten, pxOnLattice p) ∧
    (∀ (images : List Img) (method : String) (res : List Img),
        transposeOp images method = .ok res →
        ∀ oimg ∈ res, ∀ p ∈ oimg.flatten, pxOnLattice p) ∧
    (∀ (pil : Resampling → RGB → U8Img → U8Img) (images : List Img)
        (resample fillColor : String) (res : List Img),
        rotateOp pil images resample fillColor = .ok res →
        ∀ oimg ∈ res, ∀ p ∈ oimg.flatten, pxOnLattice p) ∧
    (∀ x : ℚ, ¬ onLattice x → fromU8 (toU8 x) ≠ x) := by
  refine ⟨?_, ?_, ?_, ?_⟩
  · intro images colors dither oimg ho p hp
    unfold quantizeOp at ho
    rw [List.mem_map] at ho
    obtain ⟨img, _, rfl⟩ := ho
    exact fromU8Img_lattice hp
  · intro images method res hres oimg ho p hp
    obtain ⟨img, _, hone⟩ := mapE_ok_mem hres ho
    unfold transposeOne at hone
    cases hlk : transposeMethods.lookup method with
    | none => rw [hlk] at hone; simp at hone
    | some m =>
      rw [hlk] at hone
      exact fromU8Img_lattice (assignBroadcast_ok_mem hone hp)
  · intro pil images resample fillColor res hres oimg ho p hp
    obtain ⟨img, _, hone⟩ := mapE_ok_mem hres ho
    unfold rotateOne at hone
    cases hpc : parseFillColor fillColor with
    | error e => rw [hpc] at hone; simp at hone
    | ok c =>
      rw [hpc] at hone
      cases hlk : resamplers.lookup resample with
      | none => rw [hlk] at hone; simp at hone
      | some rs =>
        rw [hlk] at hone
        exact fromU8Img_lattice (assignBroadcast_ok_mem hone hp)
  · intro x hx hfix
    exact hx ⟨(toU8 x).val, Nat.le_of_lt_succ (toU8 x).isLt, hfix.symm⟩

/-- Witness for claim C10 on a successful transpose call. -/
theorem eight_bit_lattice_witness :
    transposeOp [[[((0 : ℚ), (0 : ℚ), (0 : ℚ))]]] "Flip horizontal" =
      .ok [[[((0 : ℚ), (0 : ℚ), (0 : ℚ))]]] ∧
    (∀ p ∈ ([[((0 : ℚ), (0 : ℚ), (0 : ℚ))]] : Img).flatten, pxOnLattice p) := by
  have h0 : transposeOp [[[((0 : ℚ), (0 : ℚ), (0 : ℚ))]]] "Flip horizontal" =
      .ok [[[((0 : ℚ), (0 : ℚ), (0 : ℚ))]]] := by with_unfolding_all rfl
  refine ⟨h0, ?_⟩
  exact eight_bit_lattice.2.1 [[[(0, 0, 0)]]] "Flip horizontal" [[[(0, 0, 0)]]] h0
    [[(0, 0, 0)]] (by simp)
